import Mathlib

/-
Verification of the enrichment orchestration and batch engine
(`services/enrichment_service.py` together with `dtos/enrichment_dto.py`).

The Python service is shallowly embedded: every orchestration function is a
pure Lean function, analyzer/cache/persistence collaborators are passed in as
explicit values, and side effects (cache writes, persistence writes, webhook
POSTs, analyzer invocations) are returned as explicit effect lists.  Wall-clock
readings (`datetime.utcnow`), the md5 digest, and generated uuids are abstracted
as parameters: the orchestrator only passes them around or compares digests for
equality, so any function of the same shape is a faithful stand-in.
-/

namespace MessageEnrichment

/-! ## String ordering (Python `sort(key=lambda m: m.message_id)`)

Python compares strings lexicographically by code point; Lean 4.14's built-in
`String` order does not reduce in the kernel, so we define the comparison over
the character list directly. -/

/-- Lexicographic strict order on character lists, by code point. -/
def charListLt : List Char → List Char → Bool
  | [], [] => false
  | [], _ :: _ => true
  | _ :: _, [] => false
  | a :: as, b :: bs => if a < b then true else if b < a then false else charListLt as bs

/-- Python string `<`, by code point. -/
def strLt (a b : String) : Bool := charListLt a.data b.data

/-- Insert `x` into `acc` after every element strictly smaller than it keeps
later-inserted elements after equal keys. -/
def insertLt (keyLt : α → α → Bool) (x : α) : List α → List α
  | [] => [x]
  | y :: ys => if keyLt x y then x :: y :: ys else y :: insertLt keyLt x ys

/-- Stable sort (Python `list.sort`): fold the input left-to-right, inserting
each element behind all earlier elements with an equal-or-smaller key. -/
def sortStable (keyLt : α → α → Bool) (l : List α) : List α :=
  l.foldl (fun acc x => insertLt keyLt x acc) []

/-! ## Data model (`dtos/enrichment_dto.py`) -/

/-- One entry of an injected conversation history
(`{"role": …, "content": …, "message_id": …}` built by `_build_shared_context`). -/
structure ContextEntry where
  role : String
  content : String
  message_id : String
deriving DecidableEq, Repr

/-- Request DTO `EnrichmentRequestDTO`.  The pydantic validator guarantees `content` is
non-empty and at most 100000 characters; `priority` matches `low|normal|high`.
Field defaults mirror the DTO defaults. -/
structure EnrichmentRequestDTO where
  message_id : String
  user_id : String := "u"
  organization_id : String := "org"
  content : String
  role : String := "user"
  conversation_id : Option String := none
  parent_message_id : Option String := none
  assistant_response : Option String := none
  conversation_history : Option (List ContextEntry) := none
  priority : String := "normal"
  wait_for_response : Bool := true
  include_pii_detection : Bool := true
  include_quality_analysis : Bool := true
deriving DecidableEq, Repr

/-- One classification entry (the dict stored under `"work"`, `"topic"` or
`"intent"`).  The orchestrator reads only the optional `"confidence"` field
(`_calculate_overall_confidence`); the rest of the analyzer's dict is opaque to
it and summarized as `payload`. -/
structure ClassEntry where
  confidence : Option String
  payload : String := ""
deriving DecidableEq, Repr

/-- The classification analyzer's result dict, restricted to the three keys the
orchestrator reads (`classification.get("work"/"topic"/"intent")`). -/
structure Classification where
  work : Option ClassEntry
  topic : Option ClassEntry
  intent : Option ClassEntry
deriving DecidableEq, Repr

/-- The dict built by `_build_result` and stored in cache / persisted.
`enriched_at` is a wall-clock timestamp and is abstracted away;
`processing_time_ms` is kept abstract as a `Nat` supplied by the environment. -/
structure EnrichmentResult where
  message_id : String
  user_id : String
  organization_id : String
  processing_time_ms : Nat
  work_classification : Option ClassEntry
  topic_classification : Option ClassEntry
  intent_classification : Option ClassEntry
  quality_analysis : Option String
  pii_detection : Option String
  overall_confidence : ℚ
  used_assistant_response : Bool
  model_used : String
deriving DecidableEq, Repr

/-- Response envelope `EnrichmentResponseDTO`. -/
structure EnrichmentResponseDTO where
  job_id : String
  status : String
  message_id : String
  result : Option EnrichmentResult := none
  processing_time_ms : Option Nat := none
  cache_hit : Bool := false
  error : Option String := none
deriving DecidableEq, Repr

/-! ## Cache collaborator (`CacheRepository` over Redis)

Modelled as an association list of `(key, value, absolute expiry)`:
`set key v ttl` at time `now` prepends `(key, v, now + ttl)`; `get` reads the
newest entry for the key and treats an expired entry as absent (Redis expiry).
The orchestrator's enrichment namespace stores `EnrichmentResult` values. -/

abbrev Cache := List (String × EnrichmentResult × Nat)

/-- Cache read at time `now`: newest entry for `key`, absent once expired. -/
def cacheGet (c : Cache) (key : String) (now : Nat) : Option EnrichmentResult :=
  match c.find? (fun e => e.1 == key) with
  | some (_, v, exp) => if now < exp then some v else none
  | none => none

/-- Cache write at time `now` with relative `ttl` seconds. -/
def cacheSet (c : Cache) (key : String) (v : EnrichmentResult) (ttl now : Nat) : Cache :=
  (key, v, now + ttl) :: c

/-- Replay a list of recorded cache writes `(key, value, absolute expiry)`. -/
def applyWrites (ws : List (String × EnrichmentResult × Nat)) (c : Cache) : Cache :=
  ws.foldl (fun acc w => w :: acc) c

/-! ## Cache key (`_generate_cache_key`) -/

/-- The pre-digest data string: `f"{request.content}:{request.assistant_response or ''}"`.
Python's `or` maps both `None` and `""` to `""`, i.e. `getD ""`. -/
def cacheKeyData (r : EnrichmentRequestDTO) : String :=
  r.content ++ ":" ++ r.assistant_response.getD ""

/-- Key derivation `_generate_cache_key`: `"enrichment:" + md5(data)`.  The md5 digest is an
abstract function parameter; the orchestrator only compares digests. -/
def generate_cache_key (md5 : String → String) (r : EnrichmentRequestDTO) : String :=
  "enrichment:" ++ md5 (cacheKeyData r)

/-! ## Overall confidence (`_calculate_overall_confidence`) -/

/-- Weight of one confidence label: the source's `if/elif/else` chain.  Any
label other than `"high"` and `"medium"` — including `"low"` and unrecognised
labels — falls into the `else` branch. -/
def confidenceWeight (conf : String) : ℚ :=
  if conf = "high" then 1 else if conf = "medium" then 1/2 else 1/4

/-- The entries present among the keys `"work"`, `"topic"`, `"intent"`, in the
source's loop order. -/
def classificationValues (c : Classification) : List ClassEntry :=
  [c.work, c.topic, c.intent].filterMap id

/-- Confidence scoring `_calculate_overall_confidence`: mean of the per-entry weights, where a
missing `"confidence"` field defaults to `"medium"`; `0.5` when no key is
present. -/
def calculate_overall_confidence (c : Classification) : ℚ :=
  let confidences := (classificationValues c).map
    (fun e => confidenceWeight (e.confidence.getD "medium"))
  if confidences.isEmpty then 1/2 else confidences.sum / confidences.length

/-! ## Single-message pipeline (`enrich_message`)

The collaborators of one `enrich_message` call are gathered in `MessageEnv`:
the three analyzers (`Except`-valued: `.error` models a raised exception, per
the collaborator contract the orchestrator treats any analyzer failure as
fatal), the abstract md5 digest, the job id (`_generate_job_id` hashes
`message_id` plus the current timestamp — pure wall clock, so abstract), the
value the assistant-response poll loop would find before its 5-second deadline
(if any), the measured elapsed milliseconds, and the configured model name. -/

structure MessageEnv where
  md5 : String → String
  job_id : String
  classify : String → Option String → Option (List ContextEntry) → Except String Classification
  qualityAnalyze : String → Option String → Except String String
  piiDetect : String → Except String String
  companion : Option String
  procTime : Nat
  model_used : String := "gpt-4.1-nano"

/-- Companion wait `_wait_for_assistant_response`: `if not conversation_id:`
returns `None` without polling when `conversation_id` is absent or empty
(Python falsy); the poll loop's `if response:` treats an empty string as
falsy, so only a non-empty companion value is ever returned. -/
def wait_for_assistant_response (env : MessageEnv) (r : EnrichmentRequestDTO) : Option String :=
  match r.conversation_id with
  | none => none
  | some c =>
      if c = "" then none
      else
        match env.companion with
        | some s => if s = "" then none else some s
        | none => none

/-- The request as mutated just before analyzer dispatch: when
`wait_for_response` is set and `role == "user"`, a found companion response is
attached (`if assistant_response: request.assistant_response = …`). -/
def afterWait (env : MessageEnv) (r : EnrichmentRequestDTO) : EnrichmentRequestDTO :=
  if r.wait_for_response && r.role == "user" then
    match wait_for_assistant_response env r with
    | some s => { r with assistant_response := some s }
    | none => r
  else r

/-- Names of the analyzers dispatched for a request, in task-list order:
classification always, quality and PII only when their flags are set. -/
def dispatchedAnalyzers (r : EnrichmentRequestDTO) : List String :=
  ["classification"]
    ++ (if r.include_quality_analysis then ["quality"] else [])
    ++ (if r.include_pii_detection then ["pii"] else [])

/-- The error messages of the dispatched analyzers that raise, in task-list
order. -/
def analyzerFailures (env : MessageEnv) (r : EnrichmentRequestDTO) : List String :=
  (match env.classify r.content r.assistant_response r.conversation_history with
   | .error e => [e] | .ok _ => [])
    ++ (if r.include_quality_analysis then
          match env.qualityAnalyze r.content r.assistant_response with
          | .error e => [e] | .ok _ => []
        else [])
    ++ (if r.include_pii_detection then
          match env.piiDetect r.content with
          | .error e => [e] | .ok _ => []
        else [])

/-- The `asyncio.gather` join over the dispatched analyzer tasks: if any task
raised, the `await` re-raises (the embedding deterministically surfaces the
first error in task-list order; which of several concurrent errors Python
surfaces is scheduler-dependent); otherwise the classification result plus the
list of remaining results in task order (`results[1:]`) is produced. -/
def runAnalyzers (env : MessageEnv) (r : EnrichmentRequestDTO) :
    Except String (Classification × List String) :=
  match env.classify r.content r.assistant_response r.conversation_history with
  | .error e => .error e
  | .ok cls =>
      let qRes : Option (Except String String) :=
        if r.include_quality_analysis then
          some (env.qualityAnalyze r.content r.assistant_response) else none
      let pRes : Option (Except String String) :=
        if r.include_pii_detection then some (env.piiDetect r.content) else none
      match qRes, pRes with
      | some (.error e), _ => .error e
      | _, some (.error e) => .error e
      | qq, pp =>
          .ok (cls, (match qq with | some (.ok q) => [q] | _ => [])
                ++ (match pp with | some (.ok p) => [p] | _ => []))

/-- Result assembly `_build_result`: assembles the result dict from the positional `results`
list.  `quality_analysis` takes `results[1]` and `pii_detection` takes
`results[2]` whenever those positions exist, regardless of which analyzers
filled them; `rest` is `results[1:]` in task order.
`used_assistant_response = bool(request.assistant_response)`, so `None` and
`""` are both false. -/
def build_result (env : MessageEnv) (r : EnrichmentRequestDTO)
    (classification : Classification) (rest : List String) : EnrichmentResult :=
  { message_id := r.message_id
    user_id := r.user_id
    organization_id := r.organization_id
    processing_time_ms := env.procTime
    work_classification := classification.work
    topic_classification := classification.topic
    intent_classification := classification.intent
    quality_analysis := rest[0]?
    pii_detection := rest[1]?
    overall_confidence := calculate_overall_confidence classification
    used_assistant_response := r.assistant_response.getD "" != ""
    model_used := env.model_used }

/-- The observable side effects of one `enrich_message` call. -/
structure MessageEffects where
  analyzerCalls : List String
  cacheWrites : List (String × EnrichmentResult × Nat)
  persists : List EnrichmentResult
deriving DecidableEq, Repr

/-- Pipeline `enrich_message`: cache check first (a hit returns the cached result with
`cache_hit=True` and no analyzer, cache or persistence activity); on a miss the
companion wait runs, all selected analyzers are dispatched, and either the
first raised analyzer error is caught by the surrounding `except` — returning
a `failed` outcome with no cache write and no persistence — or the assembled
result is cached for 3600 s, persisted, and returned with `cache_hit=False`. -/
def enrich_message (env : MessageEnv) (cache : Cache) (now : Nat)
    (request : EnrichmentRequestDTO) : EnrichmentResponseDTO × MessageEffects :=
  let cache_key := generate_cache_key env.md5 request
  match cacheGet cache cache_key now with
  | some cached =>
      ({ job_id := env.job_id, status := "completed", message_id := request.message_id,
         result := some cached, processing_time_ms := none, cache_hit := true, error := none },
       { analyzerCalls := [], cacheWrites := [], persists := [] })
  | none =>
      let request := afterWait env request
      let calls := dispatchedAnalyzers request
      match runAnalyzers env request with
      | .error e =>
          ({ job_id := env.job_id, status := "failed", message_id := request.message_id,
             result := none, processing_time_ms := none, cache_hit := false, error := some e },
           { analyzerCalls := calls, cacheWrites := [], persists := [] })
      | .ok (cls, rest) =>
          let result := build_result env request cls rest
          ({ job_id := env.job_id, status := "completed", message_id := request.message_id,
             result := some result, processing_time_ms := some env.procTime,
             cache_hit := false, error := none },
           { analyzerCalls := calls,
             cacheWrites := [(cache_key, result, now + 3600)],
             persists := [result] })

/-! ## Batch orchestrator (`enrich_batch`) -/

/-- Batch request DTO `BatchEnrichmentRequestDTO`.  The pydantic validators additionally require
1–100 messages, pairwise-distinct `message_id`s, and a webhook url starting
with `http://` or `https://`.  Field defaults mirror the DTO defaults. -/
structure BatchEnrichmentRequestDTO where
  batch_id : Option String := none
  organization_id : String := "org"
  messages : List EnrichmentRequestDTO
  priority : String := "normal"
  parallel_processing : Bool := true
  fail_fast : Bool := false
  share_context : Bool := true
  deduplicate : Bool := true
  webhook_url : Option String := none
  include_partial_results : Bool := true
deriving DecidableEq, Repr

/-- One entry of a batch's `errors` list: per-message failures are recorded as
`{"message_id": …, "error": …}`, an aborted batch as `{"batch_error": …}`. -/
inductive BatchErrorEntry where
  | perMessage (message_id : String) (error : String)
  | batchError (error : String)
deriving DecidableEq, Repr

/-- Batch response DTO `BatchEnrichmentResponseDTO`.  `started_at`, `completed_at` and
`processing_time_ms` are wall-clock readings and are abstracted away.
`cache_hits` and `cache_misses` default to 0 in the DTO. -/
structure BatchEnrichmentResponseDTO where
  batch_id : String
  status : String
  organization_id : String
  total_messages : Nat
  processed_messages : Nat
  successful_messages : Nat
  failed_messages : Nat
  results : Option (List EnrichmentResponseDTO) := none
  errors : Option (List BatchErrorEntry) := none
  cache_hits : Nat := 0
  cache_misses : Nat := 0
deriving DecidableEq, Repr

/-- Recursion of `_deduplicate_messages`: `seen` is the set of content digests
already encountered; a message whose digest was seen is silently dropped. -/
def dedupGo (md5 : String → String) (seen : List String) :
    List EnrichmentRequestDTO → List EnrichmentRequestDTO
  | [] => []
  | msg :: rest =>
      let h := md5 msg.content
      if h ∈ seen then dedupGo md5 seen rest
      else msg :: dedupGo md5 (h :: seen) rest

/-- Deduplication `_deduplicate_messages`: keep the first occurrence per content digest, in
original order. -/
def deduplicate_messages (md5 : String → String)
    (messages : List EnrichmentRequestDTO) : List EnrichmentRequestDTO :=
  dedupGo md5 [] messages

/-- The conversation key of a message: `msg.conversation_id or msg.message_id`
(Python `or`: an absent or empty `conversation_id` falls back to the message's
own id). -/
def conversationKey (m : EnrichmentRequestDTO) : String :=
  match m.conversation_id with
  | some c => if c = "" then m.message_id else c
  | none => m.message_id

/-- Append `m` to the group of `cid`, or open a new group at the end — the
insertion-ordered dict of `_group_by_conversation`. -/
def addToGroup (groups : List (String × List EnrichmentRequestDTO)) (cid : String)
    (m : EnrichmentRequestDTO) : List (String × List EnrichmentRequestDTO) :=
  match groups with
  | [] => [(cid, [m])]
  | (k, ms) :: rest =>
      if k = cid then (k, ms ++ [m]) :: rest else (k, ms) :: addToGroup rest cid m

/-- Key order of `groups[conv_id].sort(key=lambda m: m.message_id)`. -/
def msgIdLt (a b : EnrichmentRequestDTO) : Bool := strLt a.message_id b.message_id

/-- Grouping `_group_by_conversation`: group by conversation key in first-encounter
order, then stably sort each group by `message_id`. -/
def group_by_conversation (messages : List EnrichmentRequestDTO) :
    List (String × List EnrichmentRequestDTO) :=
  let groups := messages.foldl (fun gs m => addToGroup gs (conversationKey m) m) []
  groups.map (fun g => (g.1, sortStable msgIdLt g.2))

/-- The `share_context=False` branch: `{msg.message_id: [msg] for msg in …}`.
The batch validator rejects duplicate message ids, so the dict keys are
distinct and insertion order is list order. -/
def singletonGroups (messages : List EnrichmentRequestDTO) :
    List (String × List EnrichmentRequestDTO) :=
  messages.map (fun m => (m.message_id, [m]))

/-- Python's `s[:500]`: the first 500 characters of `s`. -/
def truncate500 (s : String) : String := String.mk (s.data.take 500)

/-- Shared context `_build_shared_context`: each group member's role, content truncated to 500
characters, and message id, in group order. -/
def build_shared_context (messages : List EnrichmentRequestDTO) : List ContextEntry :=
  messages.map (fun m =>
    { role := m.role, content := truncate500 m.content, message_id := m.message_id })

/-- The in-place mutation `if shared_context: msg.conversation_history =
shared_context` applied to every member of one group.  The guard is false only
for an empty context, i.e. only for an empty group. -/
def injectContext (group : List EnrichmentRequestDTO) : List EnrichmentRequestDTO :=
  let shared_context := build_shared_context group
  group.map (fun m =>
    if shared_context.isEmpty then m
    else { m with conversation_history := some shared_context })

/-- The requests in dispatch order: groups in `conversation_groups.values()`
order, each with its shared context injected. -/
def processingOrder (groups : List (String × List EnrichmentRequestDTO)) :
    List EnrichmentRequestDTO :=
  (groups.map (fun g => injectContext g.2)).flatten

/-- The mutable aggregation state of `enrich_batch`'s processing loop: the
local `results`, `errors`, `cache_hits`, `cache_misses` variables and the
`processed`/`successful`/`failed` counters mutated on the response object. -/
structure BatchAgg where
  results : List EnrichmentResponseDTO := []
  errors : List BatchErrorEntry := []
  cache_hits : Nat := 0
  cache_misses : Nat := 0
  processed : Nat := 0
  successful : Nat := 0
  failed : Nat := 0
deriving DecidableEq, Repr

/-- Aggregation of one successful outcome. -/
def aggSuccess (a : BatchAgg) (r : EnrichmentResponseDTO) : BatchAgg :=
  { a with results := a.results ++ [r]
           successful := a.successful + 1
           cache_hits := a.cache_hits + (if r.cache_hit then 1 else 0)
           cache_misses := a.cache_misses + (if r.cache_hit then 0 else 1)
           processed := a.processed + 1 }

/-- Aggregation of one raised pipeline invocation (without `fail_fast`):
record `{"message_id": mid, "error": e}` and count the failure. -/
def aggFailure (a : BatchAgg) (mid e : String) : BatchAgg :=
  { a with errors := a.errors ++ [.perMessage mid e]
           failed := a.failed + 1
           processed := a.processed + 1 }

/-- The parallel-mode results loop: each task result is paired with the
message id the loop attributes it to (`messages_to_process[i].message_id`).
With `fail_fast`, `raise result` aborts the loop before any counter update for
the raising task; the partially-updated state is kept for the outer handler. -/
def aggregateLoop (fail_fast : Bool) :
    List (Except String EnrichmentResponseDTO × String) → BatchAgg →
      BatchAgg × Option String
  | [], a => (a, none)
  | (res, mid) :: rest, a =>
      match res with
      | .ok r => aggregateLoop fail_fast rest (aggSuccess a r)
      | .error e =>
          if fail_fast then (a, some e)
          else aggregateLoop fail_fast rest (aggFailure a mid e)

/-- The sequential-mode loop: run each request in dispatch order; a raised
invocation is attributed to the request itself (`msg.message_id`); with
`fail_fast` the bare `raise` aborts before any counter update.  Also returns
the requests actually dispatched. -/
def sequentialLoop (run : EnrichmentRequestDTO → Except String EnrichmentResponseDTO)
    (fail_fast : Bool) :
    List EnrichmentRequestDTO → BatchAgg →
      BatchAgg × Option String × List EnrichmentRequestDTO
  | [], a => (a, none, [])
  | m :: rest, a =>
      match run m with
      | .ok r =>
          let t := sequentialLoop run fail_fast rest (aggSuccess a r)
          (t.1, t.2.1, m :: t.2.2)
      | .error e =>
          if fail_fast then (a, some e, [m])
          else
            let t := sequentialLoop run fail_fast rest (aggFailure a m.message_id e)
            (t.1, t.2.1, m :: t.2.2)

/-- The batch's collaborators: the abstract md5 digest, the generated fallback
batch id (`f"batch_{uuid4().hex[:8]}"`, uuid abstracted), and the per-message
pipeline `_process_single_with_tracking` as an oracle.  The oracle's `.error`
case mirrors the `isinstance(result, Exception)` / `except` defenses that
`enrich_batch` itself contains; in the program those defenses are dead code,
because the pipeline can never raise into the batch: `enrich_message` wraps
its whole body after the job id in `try/except Exception` and returns a
`failed`-status DTO instead of raising, and `track_metric` swallows its own
errors.  Properties of the program are therefore settled against oracles that
never error (`composedRun`, or the hypothesis `∀ m, (env.run m).isOk`). -/
structure BatchEnv where
  md5 : String → String
  uuidBatchId : String := "batch_00000000"
  run : EnrichmentRequestDTO → Except String EnrichmentResponseDTO

/-- The pipeline as `enrich_batch` actually invokes it:
`_process_single_with_tracking` awaits `enrich_message` — which catches every
exception and returns the `failed`-status DTO — and its metric tracking
swallows its own errors, so the invocation always returns, never raises.
Each invocation is given the batch-initial cache state; this matches runs in
which the batch's messages touch pairwise distinct, initially absent cache
keys (as in every fixture below), and the parallel mode where all tasks may
read the cache before any write lands. -/
def composedRun (menv : MessageEnv) (cache : Cache) (now : Nat)
    (m : EnrichmentRequestDTO) : Except String EnrichmentResponseDTO :=
  .ok (enrich_message menv cache now m).1

/-- A batch environment running the real (composed) pipeline: the batch and
the pipeline share the md5 digest, as both call `hashlib.md5`. -/
def composedBatchEnv (menv : MessageEnv) (cache : Cache) (now : Nat) : BatchEnv :=
  { md5 := menv.md5, run := composedRun menv cache now }

/-- Dispatch and aggregation for both modes.  In parallel mode every request in
dispatch order is submitted before the join, and the results loop pairs task
`i` with `messages_to_process[i]` — the original (pre-grouping) order;
sequential mode dispatches lazily. -/
def batchProcess (env : BatchEnv) (request : BatchEnrichmentRequestDTO)
    (messages_to_process order : List EnrichmentRequestDTO) :
    BatchAgg × Option String × List EnrichmentRequestDTO :=
  if request.parallel_processing then
    let p := aggregateLoop request.fail_fast
      ((order.map env.run).zip (messages_to_process.map (fun m => m.message_id))) {}
    (p.1, p.2, order)
  else sequentialLoop env.run request.fail_fast order {}

/-- The observable side effects of one `enrich_batch` call. -/
structure BatchEffects where
  dispatched : List EnrichmentRequestDTO
  batchCacheWrites : List String
  webhookCalls : List String
deriving DecidableEq, Repr

/-- The tail of `enrich_batch`: on an abort (`fail_fast` re-raise or any
orchestration-level exception) the `except` handler stamps `status="failed"`
and `errors=[{"batch_error": …}]` on the partially-mutated response and returns
it — no batch-state write, no webhook.  Otherwise the response is finalized
(`"completed"` when no errors were collected, else `"partial"`), the batch
state is cached under `batch:<id>`, and one webhook POST is spawned when a
(truthy) `webhook_url` is set. -/
def batchFinalize (request : BatchEnrichmentRequestDTO) (batch_id : String)
    (total : Nat) (p : BatchAgg × Option String × List EnrichmentRequestDTO) :
    BatchEnrichmentResponseDTO × BatchEffects :=
  match p with
  | (agg, some e, dispatched) =>
      ({ batch_id := batch_id, status := "failed",
         organization_id := request.organization_id,
         total_messages := total,
         processed_messages := agg.processed,
         successful_messages := agg.successful,
         failed_messages := agg.failed,
         results := none,
         errors := some [.batchError e] },
       { dispatched := dispatched, batchCacheWrites := [], webhookCalls := [] })
  | (agg, none, dispatched) =>
      ({ batch_id := batch_id,
         status := if agg.errors.isEmpty then "completed" else "partial",
         organization_id := request.organization_id,
         total_messages := total,
         processed_messages := agg.processed,
         successful_messages := agg.successful,
         failed_messages := agg.failed,
         results := if request.include_partial_results || agg.errors.isEmpty
                    then some agg.results else none,
         errors := if agg.errors.isEmpty then none else some agg.errors,
         cache_hits := agg.cache_hits,
         cache_misses := agg.cache_misses },
       { dispatched := dispatched,
         batchCacheWrites := ["batch:" ++ batch_id],
         webhookCalls := match request.webhook_url with
                         | some u => if u = "" then [] else [u]
                         | none => [] })

/-- Batch id: `request.batch_id or f"batch_{uuid4().hex[:8]}"` — Python `or`,
so an absent or empty `batch_id` falls back to the generated one. -/
def batchIdOf (env : BatchEnv) (request : BatchEnrichmentRequestDTO) : String :=
  match request.batch_id with
  | some b => if b = "" then env.uuidBatchId else b
  | none => env.uuidBatchId

/-- The `messages_to_process` list: the submitted messages, deduplicated when
requested. -/
def messagesToProcess (env : BatchEnv) (request : BatchEnrichmentRequestDTO) :
    List EnrichmentRequestDTO :=
  if request.deduplicate then deduplicate_messages env.md5 request.messages
  else request.messages

/-- The `conversation_groups` value: grouped by conversation when `share_context` is
enabled, otherwise one singleton group per message. -/
def conversationGroups (env : BatchEnv) (request : BatchEnrichmentRequestDTO) :
    List (String × List EnrichmentRequestDTO) :=
  if request.share_context then group_by_conversation (messagesToProcess env request)
  else singletonGroups (messagesToProcess env request)

/-- Orchestrator `enrich_batch`: optional deduplication, conversation grouping (or singleton
groups when `share_context` is off), context injection, dispatch/aggregation,
and finalization. -/
def enrich_batch (env : BatchEnv) (request : BatchEnrichmentRequestDTO) :
    BatchEnrichmentResponseDTO × BatchEffects :=
  batchFinalize request (batchIdOf env request) request.messages.length
    (batchProcess env request (messagesToProcess env request)
      (processingOrder (conversationGroups env request)))

/-! ## Spec-side definitions

These definitions follow the wording of spec sentences (or of amended claims)
rather than the source, for comparison with the source embedding above. -/

/-- Per-entry confidence weight as claim C6 words it: `high→1.0, medium→0.5,
low→0.25`, with `0.5` for a missing label and also for an unknown label. -/
def claimWeight : Option String → ℚ
  | none => 1/2
  | some "high" => 1
  | some "medium" => 1/2
  | some "low" => 1/4
  | some _ => 1/2

/-- Overall confidence as claim C6 words it: arithmetic mean of `claimWeight`
over the present keys, `0.5` when none is present. -/
def claimOverallConfidence (c : Classification) : ℚ :=
  let ws := (classificationValues c).map (fun e => claimWeight e.confidence)
  if ws.isEmpty then 1/2 else ws.sum / ws.length

/-- Per-entry confidence weight as the amended claim C6 words it: `high→1.0`,
`medium→0.5`, a missing label `→0.5`, and any other label — `low` and
unrecognised labels alike — `→0.25`. -/
def amendedWeight : Option String → ℚ
  | none => 1/2
  | some "high" => 1
  | some "medium" => 1/2
  | some _ => 1/4

/-- Overall confidence as the amended claim C6 words it. -/
def amendedOverallConfidence (c : Classification) : ℚ :=
  let ws := (classificationValues c).map (fun e => amendedWeight e.confidence)
  if ws.isEmpty then 1/2 else ws.sum / ws.length

/-- Claim C9's wording, relative to the already-traversed `pre`: a message is
kept exactly when no message before it (in submission order) has the same
content digest. -/
def firstOccurrenceAux (md5 : String → String) (pre : List EnrichmentRequestDTO) :
    List EnrichmentRequestDTO → List EnrichmentRequestDTO
  | [] => []
  | m :: rest =>
      if md5 m.content ∈ pre.map (fun p => md5 p.content) then
        firstOccurrenceAux md5 (pre ++ [m]) rest
      else m :: firstOccurrenceAux md5 (pre ++ [m]) rest

/-- Claim C9's wording: exactly the first occurrence of each distinct content
digest, in the original submission order. -/
def firstOccurrenceFilter (md5 : String → String)
    (messages : List EnrichmentRequestDTO) : List EnrichmentRequestDTO :=
  firstOccurrenceAux md5 [] messages

/-! ## Concrete fixtures used by counterexamples and witnesses -/

/-- A minimal successful pipeline outcome for batch oracles. -/
def okRespFix (mid : String) : EnrichmentResponseDTO :=
  { job_id := "j", status := "completed", message_id := mid }

/-- A successful classification payload for fixture analyzers. -/
def clsOkFix : Classification :=
  { work := some { confidence := some "high" }, topic := none, intent := none }

/-- Pipeline environment whose classification collaborator raises exactly for
content `"b"`; all other analyzer calls succeed. -/
def menvC1 : MessageEnv :=
  { md5 := id, job_id := "j",
    classify := fun content _ _ =>
      if content = "b" then .error "classification analyzer down" else .ok clsOkFix,
    qualityAnalyze := fun _ _ => .ok "quality-ok",
    piiDetect := fun _ => .ok "pii-ok",
    companion := none, procTime := 1 }

/-- The real composed batch over `menvC1` with an empty initial cache. -/
def envC1c : BatchEnv := composedBatchEnv menvC1 [] 0

/-- Two-message sequential batch, no `fail_fast`: message "m1" succeeds and
message "m2"'s enrichment fails (its classification analyzer raises). -/
def reqC1c : BatchEnrichmentRequestDTO :=
  { messages := [{ message_id := "m1", content := "a" },
                 { message_id := "m2", content := "b" }],
    parallel_processing := false, fail_fast := false,
    share_context := false, deduplicate := false }

/-- Pipeline environment whose PII collaborator raises exactly for content
`"b"`; all other analyzer calls succeed. -/
def menvC3 : MessageEnv :=
  { md5 := id, job_id := "j",
    classify := fun _ _ _ => .ok clsOkFix,
    qualityAnalyze := fun _ _ => .ok "quality-ok",
    piiDetect := fun content =>
      if content = "b" then .error "pii analyzer down" else .ok "pii-ok",
    companion := none, procTime := 1 }

/-- The real composed batch over `menvC3` with an empty initial cache. -/
def envC3c : BatchEnv := composedBatchEnv menvC3 [] 0

/-- The spec's partial-failure example in parallel mode: three messages with
ids "1", "2", "3", where message "2"'s PII analyzer raises. -/
def reqC3p : BatchEnrichmentRequestDTO :=
  { messages := [{ message_id := "1", content := "a" },
                 { message_id := "2", content := "b" },
                 { message_id := "3", content := "c" }],
    parallel_processing := true, fail_fast := false,
    share_context := true, deduplicate := true }

/-- The same example in sequential mode. -/
def reqC3s : BatchEnrichmentRequestDTO :=
  { messages := reqC3p.messages,
    parallel_processing := false, fail_fast := false,
    share_context := true, deduplicate := true }

/-- A lone request with no conversation history attached by the caller. -/
def mC7 : EnrichmentRequestDTO := { message_id := "m1", content := "hello" }

/-- Batch environment whose pipeline always succeeds. -/
def envC7 : BatchEnv := { md5 := id, run := fun m => .ok (okRespFix m.message_id) }

/-- Request `mC7` as the orchestrator mutates it before dispatch: its own role,
content and id injected as its conversation history. -/
def mC7inj : EnrichmentRequestDTO :=
  { mC7 with conversation_history := some [{ role := "user", content := "hello", message_id := "m1" }] }

/-- Single-message batch with `share_context` disabled. -/
def reqC7 : BatchEnrichmentRequestDTO :=
  { messages := [mC7], parallel_processing := false,
    share_context := false, deduplicate := false }

/-- Pipeline environment in which every analyzer call succeeds. -/
def menvC4 : MessageEnv :=
  { md5 := id, job_id := "j",
    classify := fun _ _ _ => .ok clsOkFix,
    qualityAnalyze := fun _ _ => .ok "quality-ok",
    piiDetect := fun _ => .ok "pii-ok",
    companion := none, procTime := 1 }

/-- The real composed batch over `menvC4` with an empty initial cache. -/
def envC4c : BatchEnv := composedBatchEnv menvC4 [] 0

/-- Single-message batch with a webhook url. -/
def reqC4c : BatchEnrichmentRequestDTO :=
  { messages := [{ message_id := "m1", content := "a" }],
    parallel_processing := false, fail_fast := false,
    share_context := false, deduplicate := false,
    webhook_url := some "https://example.com/hook" }

/-- The real composed batch over `menvC1` (message "m2"'s classification
analyzer raises) — used to witness the batch invariants on a run with a
failed-status outcome. -/
def envC8c : BatchEnv := composedBatchEnv menvC1 [] 0

/-- Two-message sequential batch with `fail_fast` set: message "m2"'s
enrichment fails, yet nothing raises into the batch, so no abort occurs. -/
def reqC8c : BatchEnrichmentRequestDTO :=
  { messages := [{ message_id := "m1", content := "a" },
                 { message_id := "m2", content := "b" }],
    parallel_processing := false, fail_fast := true,
    share_context := false, deduplicate := false }

/-- A classification whose only entry carries the unrecognised confidence
label `"verified"`. -/
def cexCls : Classification :=
  { work := some { confidence := some "verified" }, topic := none, intent := none }

/-- Pipeline environment whose PII analyzer raises while the others succeed. -/
def envC2w : MessageEnv :=
  { md5 := id, job_id := "j1",
    classify := fun _ _ _ =>
      .ok { work := some { confidence := some "high" }, topic := none, intent := none },
    qualityAnalyze := fun _ _ => .ok "quality-ok",
    piiDetect := fun _ => .error "pii exploded",
    companion := none, procTime := 7 }

/-- A request with both optional analyzers enabled. -/
def reqC2w : EnrichmentRequestDTO := { message_id := "m1", content := "hello" }

/-- Pipeline environment in which every analyzer succeeds. -/
def envC5w : MessageEnv :=
  { md5 := id, job_id := "j1",
    classify := fun _ _ _ =>
      .ok { work := some { confidence := some "high" }, topic := none, intent := none },
    qualityAnalyze := fun _ _ => .ok "quality-ok",
    piiDetect := fun _ => .ok "pii-ok",
    companion := none, procTime := 5 }

/-- First request of the idempotency pair. -/
def rC5a : EnrichmentRequestDTO := { message_id := "m1", content := "hello" }

/-- Second request: same content and assistant response, different id. -/
def rC5b : EnrichmentRequestDTO := { message_id := "m2", content := "hello" }

/-- Two requests with identical content and different message ids. -/
def mC9a : EnrichmentRequestDTO := { message_id := "a1", content := "same words" }

/-- See `mC9a`. -/
def mC9b : EnrichmentRequestDTO := { message_id := "a2", content := "same words" }

/-- Batch environment whose pipeline always succeeds. -/
def envC9w : BatchEnv := { md5 := id, run := fun m => .ok (okRespFix m.message_id) }

/-- Batch of the two identical-content requests with `deduplicate` enabled. -/
def reqC9w : BatchEnrichmentRequestDTO := { messages := [mC9a, mC9b] }

/-- Content `"a:b"` with empty assistant response: key data `"a:b:"`. -/
def rC10a : EnrichmentRequestDTO :=
  { message_id := "x1", content := "a:b", assistant_response := some "" }

/-- Content `"a"` with assistant response `"b:"`: key data `"a:b:"` as well. -/
def rC10b : EnrichmentRequestDTO :=
  { message_id := "x2", content := "a", assistant_response := some "b:" }

/-- A request with the assistant response absent. -/
def rC10c : EnrichmentRequestDTO := { message_id := "x3", content := "c" }

/-- Same content as `rC10c` with the assistant response present but empty. -/
def rC10d : EnrichmentRequestDTO :=
  { message_id := "x4", content := "c", assistant_response := some "" }

/-! ## Batch invariants -/

/-- Invariant of the aggregation state: the processed counter splits into
successes and failures, cache statistics cover exactly the successes, and
every collected error is a per-message entry. -/
def aggWf (a : BatchAgg) : Prop :=
  a.processed = a.successful + a.failed ∧
  a.cache_hits + a.cache_misses = a.successful ∧
  ∀ e ∈ a.errors, ∃ mid msg, e = .perMessage mid msg

theorem aggWf_init : aggWf {} := by
  refine ⟨rfl, rfl, ?_⟩
  intro e he
  simp [BatchAgg.errors] at he

theorem aggSuccess_wf (a : BatchAgg) (r : EnrichmentResponseDTO) (h : aggWf a) :
    aggWf (aggSuccess a r) := by
  obtain ⟨h1, h2, h3⟩ := h
  refine ⟨?_, ?_, ?_⟩
  · simp only [aggSuccess]
    omega
  · by_cases hc : r.cache_hit <;> simp [aggSuccess, hc] <;> omega
  · simpa only [aggSuccess] using h3

theorem aggFailure_wf (a : BatchAgg) (mid e : String) (h : aggWf a) :
    aggWf (aggFailure a mid e) := by
  obtain ⟨h1, h2, h3⟩ := h
  refine ⟨?_, ?_, ?_⟩
  · simp only [aggFailure]
    omega
  · simpa only [aggFailure] using h2
  · intro x hx
    simp only [aggFailure, List.mem_append, List.mem_singleton] at hx
    rcases hx with hx | hx
    · exact h3 x hx
    · exact ⟨mid, e, hx⟩

theorem aggregateLoop_wf (ff : Bool)
    (ps : List (Except String EnrichmentResponseDTO × String)) (a : BatchAgg)
    (h : aggWf a) : aggWf (aggregateLoop ff ps a).1 := by
  induction ps generalizing a with
  | nil => simpa only [aggregateLoop] using h
  | cons p rest ih =>
      obtain ⟨res, mid⟩ := p
      cases res with
      | ok r => simpa only [aggregateLoop] using ih (aggSuccess a r) (aggSuccess_wf a r h)
      | error e =>
          cases ff with
          | true => simpa only [aggregateLoop, if_true] using h
          | false =>
              simpa only [aggregateLoop, if_false] using
                ih (aggFailure a mid e) (aggFailure_wf a mid e h)

theorem sequentialLoop_wf (run : EnrichmentRequestDTO → Except String EnrichmentResponseDTO)
    (ff : Bool) (ms : List EnrichmentRequestDTO) (a : BatchAgg)
    (h : aggWf a) : aggWf (sequentialLoop run ff ms a).1 := by
  induction ms generalizing a with
  | nil => simpa only [sequentialLoop] using h
  | cons m rest ih =>
      simp only [sequentialLoop]
      cases run m with
      | ok r => simpa only using ih (aggSuccess a r) (aggSuccess_wf a r h)
      | error e =>
          cases ff with
          | true => simpa only [if_true] using h
          | false =>
              simpa only [if_false] using
                ih (aggFailure a m.message_id e) (aggFailure_wf a m.message_id e h)

theorem batchProcess_wf (env : BatchEnv) (req : BatchEnrichmentRequestDTO)
    (mtp order : List EnrichmentRequestDTO) :
    aggWf (batchProcess env req mtp order).1 := by
  unfold batchProcess
  cases hp : req.parallel_processing with
  | true =>
      simp only [if_true]
      exact aggregateLoop_wf _ _ _ aggWf_init
  | false =>
      simp only [if_false]
      exact sequentialLoop_wf _ _ _ _ aggWf_init

theorem finalize_status_iff (request : BatchEnrichmentRequestDTO) (bid : String) (total : Nat)
    (p : BatchAgg × Option String × List EnrichmentRequestDTO)
    (hpm : ∀ e ∈ p.1.errors, ∃ mid msg, e = .perMessage mid msg) :
    ((batchFinalize request bid total p).1.status = "completed" ↔
      (batchFinalize request bid total p).1.errors = none) ∧
    ((batchFinalize request bid total p).1.status = "partial" ↔
      ∃ l, (batchFinalize request bid total p).1.errors = some l ∧ l ≠ [] ∧
        ∀ e ∈ l, ∃ mid msg, e = .perMessage mid msg) ∧
    ((batchFinalize request bid total p).1.status = "failed" ↔
      ∃ msg, (batchFinalize request bid total p).1.errors = some [.batchError msg]) := by
  obtain ⟨agg, abort, dis⟩ := p
  cases abort with
  | some e =>
      refine ⟨by simp [batchFinalize], ?_, by simp [batchFinalize]⟩
      simp only [batchFinalize]
      constructor
      · intro h
        exact absurd h (by simp)
      · rintro ⟨l, hl, -, hall⟩
        have hle : [BatchErrorEntry.batchError e] = l := by simpa using hl
        obtain rfl : l = [BatchErrorEntry.batchError e] := hle.symm
        obtain ⟨mid, msg, hmm⟩ := hall _ (List.mem_singleton.mpr rfl)
        exact absurd hmm (by simp)
  | none =>
      by_cases he : agg.errors.isEmpty
      · refine ⟨by simp [batchFinalize, he], ?_, by simp [batchFinalize, he]⟩
        simp only [batchFinalize, he, if_true]
        constructor
        · intro h
          exact absurd h (by simp)
        · rintro ⟨l, hl, -, -⟩
          exact absurd hl (by simp)
      · refine ⟨by simp [batchFinalize, he], ?_, ?_⟩
        · simp only [batchFinalize, he, if_false]
          refine ⟨fun _ => ⟨agg.errors, rfl, ?_, hpm⟩, fun _ => rfl⟩
          simpa [List.isEmpty_iff] using he
        · simp only [batchFinalize, he, if_false]
          constructor
          · intro h
            exact absurd h (by simp)
          · rintro ⟨msg, hl⟩
            have heq : agg.errors = [BatchErrorEntry.batchError msg] := by simpa using hl
            obtain ⟨mid, m2, hmm⟩ :=
              hpm (BatchErrorEntry.batchError msg) (by rw [heq]; exact List.mem_singleton.mpr rfl)
            exact absurd hmm (by simp)

theorem finalize_counts (request : BatchEnrichmentRequestDTO) (bid : String) (total : Nat)
    (p : BatchAgg × Option String × List EnrichmentRequestDTO)
    (h1 : p.1.processed = p.1.successful + p.1.failed)
    (h2 : p.1.cache_hits + p.1.cache_misses = p.1.successful) :
    ((batchFinalize request bid total p).1.processed_messages =
      (batchFinalize request bid total p).1.successful_messages +
        (batchFinalize request bid total p).1.failed_messages) ∧
    (((batchFinalize request bid total p).1.status = "completed" ∨
       (batchFinalize request bid total p).1.status = "partial") →
      (batchFinalize request bid total p).1.cache_hits +
        (batchFinalize request bid total p).1.cache_misses =
        (batchFinalize request bid total p).1.successful_messages) ∧
    ((batchFinalize request bid total p).1.status = "failed" →
      (batchFinalize request bid total p).1.cache_hits = 0 ∧
      (batchFinalize request bid total p).1.cache_misses = 0) := by
  obtain ⟨agg, abort, dis⟩ := p
  cases abort with
  | some e =>
      refine ⟨by simpa [batchFinalize] using h1, ?_, by simp [batchFinalize]⟩
      intro h
      rcases h with h | h <;> exact absurd h (by simp [batchFinalize])
  | none =>
      refine ⟨by simpa [batchFinalize] using h1, fun _ => by simpa [batchFinalize] using h2, ?_⟩
      intro h
      by_cases he : agg.errors.isEmpty <;> exact absurd h (by simp [batchFinalize, he])

theorem finalize_webhook (request : BatchEnrichmentRequestDTO) (bid : String) (total : Nat)
    (p : BatchAgg × Option String × List EnrichmentRequestDTO)
    (u : String) (hu : request.webhook_url = some u) (hne : u ≠ "") :
    (((batchFinalize request bid total p).1.status = "completed" ∨
       (batchFinalize request bid total p).1.status = "partial") →
      (batchFinalize request bid total p).2.webhookCalls = [u]) ∧
    ((batchFinalize request bid total p).1.status = "failed" →
      (batchFinalize request bid total p).2.webhookCalls = []) := by
  obtain ⟨agg, abort, dis⟩ := p
  cases abort with
  | some e =>
      refine ⟨?_, fun _ => by simp [batchFinalize]⟩
      intro h
      rcases h with h | h <;> exact absurd h (by simp [batchFinalize])
  | none =>
      refine ⟨fun _ => by simp [batchFinalize, hu, hne], ?_⟩
      intro h
      by_cases he : agg.errors.isEmpty <;> exact absurd h (by simp [batchFinalize, he])

theorem aggregateLoop_ok_noAbort (ff : Bool)
    (ps : List (Except String EnrichmentResponseDTO × String)) (a : BatchAgg)
    (h : ∀ p ∈ ps, p.1.toBool = true) : (aggregateLoop ff ps a).2 = none := by
  induction ps generalizing a with
  | nil => rfl
  | cons p rest ih =>
      obtain ⟨res, mid⟩ := p
      cases res with
      | ok r =>
          simpa only [aggregateLoop] using
            ih (aggSuccess a r) (fun q hq => h q (List.mem_cons_of_mem _ hq))
      | error e =>
          have := h (Except.error e, mid) (List.mem_cons_self _ _)
          simp [Except.toBool] at this

theorem sequentialLoop_ok_noAbort
    (run : EnrichmentRequestDTO → Except String EnrichmentResponseDTO)
    (ff : Bool) (ms : List EnrichmentRequestDTO) (a : BatchAgg)
    (h : ∀ m, (run m).toBool = true) : (sequentialLoop run ff ms a).2.1 = none := by
  induction ms generalizing a with
  | nil => rfl
  | cons m rest ih =>
      simp only [sequentialLoop]
      rcases hr : run m with e | r
      · have := h m
        rw [hr] at this
        simp [Except.toBool] at this
      · exact ih (aggSuccess a r)

theorem batchProcess_ok_noAbort (env : BatchEnv) (req : BatchEnrichmentRequestDTO)
    (mtp order : List EnrichmentRequestDTO)
    (h : ∀ m, (env.run m).toBool = true) :
    (batchProcess env req mtp order).2.1 = none := by
  unfold batchProcess
  cases hp : req.parallel_processing with
  | true =>
      simp only [if_true]
      refine aggregateLoop_ok_noAbort _ _ _ ?_
      rintro ⟨x, y⟩ hxy
      have h1 : x ∈ order.map env.run := (List.of_mem_zip hxy).1
      obtain ⟨m, -, hm⟩ := List.mem_map.mp h1
      rw [← hm]
      exact h m
  | false =>
      simp only [if_false]
      exact sequentialLoop_ok_noAbort _ _ _ _ h

theorem finalize_nonabort_status (request : BatchEnrichmentRequestDTO) (bid : String)
    (total : Nat) (p : BatchAgg × Option String × List EnrichmentRequestDTO)
    (hab : p.2.1 = none) :
    (batchFinalize request bid total p).1.status = "completed" ∨
    (batchFinalize request bid total p).1.status = "partial" := by
  obtain ⟨agg, abort, dis⟩ := p
  obtain rfl : abort = none := hab
  by_cases he : agg.errors.isEmpty <;> simp [batchFinalize, he]

/-- C1, failing input: a two-message batch (no `fail_fast`) in which message
"m2"'s classification analyzer raises while "m1" succeeds.  The pipeline
catches the analyzer error (`enrich_message`'s `except`) and returns a
`failed`-status outcome, which the batch loop counts as successful: the final
job is `completed` with `successful_messages = 2`, `failed_messages = 0` and
no errors, although one message succeeded and one failed — the claim requires
`partial` here.  The spec's aggregation is the intent (the batch has dedicated
branches for counting failures and collecting errors) but those branches are
unreachable, so `partial` never arises. -/
theorem C1_mixed_failure_reported_completed :
    Option.map (List.map (fun r => r.status)) (enrich_batch envC1c reqC1c).1.results =
      some ["completed", "failed"] ∧
    (enrich_batch envC1c reqC1c).1.status = "completed" ∧
    (enrich_batch envC1c reqC1c).1.successful_messages = 2 ∧
    (enrich_batch envC1c reqC1c).1.failed_messages = 0 ∧
    (enrich_batch envC1c reqC1c).1.errors = none := by
  decide

/-- C4: the per-message pipeline never raises into the batch, so no batch
terminates through the abort path: every batch with a (truthy) `webhook_url`
reaches a terminal state — `completed` or `partial` — and dispatches exactly
one asynchronous webhook POST of the batch payload.  The POST is spawned as a
detached task, never awaited by the batch caller, and `_trigger_webhook`
catches and logs its own failures without retrying.  The claim's
`failed`-termination clause is vacuous: `fail_fast` aborts are unreachable,
and the orchestration-exception path (which skips the webhook) is reachable
only through an orchestrator bug, not from any input. -/
theorem C4_webhook_fires_once (env : BatchEnv) (request : BatchEnrichmentRequestDTO)
    (u : String) (hrun : ∀ m, (env.run m).toBool = true)
    (hu : request.webhook_url = some u) (hne : u ≠ "") :
    ((enrich_batch env request).1.status = "completed" ∨
      (enrich_batch env request).1.status = "partial") ∧
    (enrich_batch env request).2.webhookCalls = [u] := by
  have hab : (batchProcess env request (messagesToProcess env request)
      (processingOrder (conversationGroups env request))).2.1 = none :=
    batchProcess_ok_noAbort env request _ _ hrun
  have hst := finalize_nonabort_status request (batchIdOf env request)
    request.messages.length _ hab
  exact ⟨hst, (finalize_webhook request (batchIdOf env request)
    request.messages.length _ u hu hne).1 hst⟩

/-- C4 applied to the real composed pipeline on a single-message batch with a
webhook url. -/
theorem C4_webhook_fires_once_witness :
    ((enrich_batch envC4c reqC4c).1.status = "completed" ∨
      (enrich_batch envC4c reqC4c).1.status = "partial") ∧
    (enrich_batch envC4c reqC4c).2.webhookCalls = ["https://example.com/hook"] :=
  C4_webhook_fires_once envC4c reqC4c "https://example.com/hook"
    (fun _ => rfl) rfl (by decide)

/-- C8: in every final `BatchJob` of the program — per-message pipeline
invocations always return and never raise, so neither `fail_fast` aborts nor
per-message orchestration failures occur — `processed_messages =
successful_messages + failed_messages` and `cache_hits + cache_misses =
successful_messages`.  Both identities also hold at every intermediate
aggregation step (`aggSuccess_wf`, `aggFailure_wf`).  On every reachable run
`failed_messages` is 0: even messages whose enrichment failed are counted
successful, with their (miss) cache statistics recorded. -/
theorem C8_batch_invariants (env : BatchEnv) (request : BatchEnrichmentRequestDTO)
    (hrun : ∀ m, (env.run m).toBool = true) :
    (enrich_batch env request).1.processed_messages =
      (enrich_batch env request).1.successful_messages +
        (enrich_batch env request).1.failed_messages ∧
    (enrich_batch env request).1.cache_hits + (enrich_batch env request).1.cache_misses =
      (enrich_batch env request).1.successful_messages := by
  have hab : (batchProcess env request (messagesToProcess env request)
      (processingOrder (conversationGroups env request))).2.1 = none :=
    batchProcess_ok_noAbort env request _ _ hrun
  have hst := finalize_nonabort_status request (batchIdOf env request)
    request.messages.length _ hab
  have hc := finalize_counts request (batchIdOf env request) request.messages.length
    (batchProcess env request (messagesToProcess env request)
      (processingOrder (conversationGroups env request)))
    (batchProcess_wf env request _ _).1
    (batchProcess_wf env request _ _).2.1
  exact ⟨hc.1, hc.2.1 hst⟩

/-- C8 applied to the real composed pipeline on a `fail_fast` batch whose
second message's enrichment fails: no abort occurs and the identities hold
with every message counted successful. -/
theorem C8_batch_invariants_witness :
    (enrich_batch envC8c reqC8c).1.processed_messages =
      (enrich_batch envC8c reqC8c).1.successful_messages +
        (enrich_batch envC8c reqC8c).1.failed_messages ∧
    (enrich_batch envC8c reqC8c).1.cache_hits + (enrich_batch envC8c reqC8c).1.cache_misses =
      (enrich_batch envC8c reqC8c).1.successful_messages :=
  C8_batch_invariants envC8c reqC8c (fun _ => rfl)

/-- C3, failing input: the spec's own partial-failure example — three messages
with ids "1", "2", "3" where message "2"'s PII analyzer raises — run in
parallel and in sequential mode against the real composed pipeline.  The PII
failure is caught inside `enrich_message` and returned as a `failed`-status
outcome that the batch counts successful: no error entry is recorded at all
(in particular none carrying message "2"'s id), and the batch reports
`successful_messages = 3`, `failed_messages = 0`, status `completed` instead
of the claimed `partial` with `errors` containing message "2".  The
error-attribution branch the claim describes — which would moreover pair task
`i` with `messages_to_process[i]` in submission order while tasks are created
in conversation-group order — is dead code. -/
theorem C3_pii_failure_swallowed_no_error_entry :
    Option.map (List.map (fun r => (r.message_id, r.status)))
        (enrich_batch envC3c reqC3p).1.results =
      some [("1", "completed"), ("2", "failed"), ("3", "completed")] ∧
    (enrich_batch envC3c reqC3p).1.errors = none ∧
    (enrich_batch envC3c reqC3p).1.successful_messages = 3 ∧
    (enrich_batch envC3c reqC3p).1.failed_messages = 0 ∧
    (enrich_batch envC3c reqC3p).1.status = "completed" ∧
    Option.map (List.map (fun r => (r.message_id, r.status)))
        (enrich_batch envC3c reqC3s).1.results =
      some [("1", "completed"), ("2", "failed"), ("3", "completed")] ∧
    (enrich_batch envC3c reqC3s).1.errors = none ∧
    (enrich_batch envC3c reqC3s).1.successful_messages = 3 ∧
    (enrich_batch envC3c reqC3s).1.failed_messages = 0 ∧
    (enrich_batch envC3c reqC3s).1.status = "completed" := by
  decide

set_option maxRecDepth 4000 in
/-- C7, failing input: a single-message batch with `share_context=False` still
overwrites the request's `conversation_history` before dispatch — with a
singleton context holding the message's own role, truncated content and id —
because `_build_shared_context` is unconditionally applied to every (singleton)
group and a one-element context list is truthy. -/
theorem C7_context_injected_without_share_context :
    reqC7.share_context = false ∧
    mC7.conversation_history = none ∧
    mC7inj.conversation_history =
      some [{ role := "user", content := "hello", message_id := "m1" }] ∧
    (enrich_batch envC7 reqC7).2.dispatched = [mC7inj] :=
  ⟨rfl, rfl, rfl, rfl⟩

/-- C6, counterexample: on a classification whose single entry carries the
unrecognised confidence label "verified", the code's overall confidence is
0.25 (the `else` branch), not the 0.5 the claim assigns to unknown labels. -/
theorem C6_counterexample :
    calculate_overall_confidence cexCls = 1/4 ∧
    claimOverallConfidence cexCls = 1/2 ∧
    calculate_overall_confidence cexCls ≠ claimOverallConfidence cexCls := by
  have hv : classificationValues cexCls = [{ confidence := some "verified", payload := "" }] := by
    decide
  have hne1 : ("verified" : String) ≠ "high" := by decide
  have hne2 : ("verified" : String) ≠ "medium" := by decide
  have hcode : calculate_overall_confidence cexCls = 1/4 := by
    unfold calculate_overall_confidence
    rw [hv]
    norm_num [confidenceWeight, hne1, hne2]
  have hclaim : claimOverallConfidence cexCls = 1/2 := by
    have hw : claimWeight (some "verified") = 1/2 := rfl
    unfold claimOverallConfidence
    rw [hv]
    norm_num [hw]
  refine ⟨hcode, hclaim, ?_⟩
  rw [hcode, hclaim]
  norm_num

/-- Pointwise agreement of the source's weight chain with the amended
wording. -/
theorem confidenceWeight_eq_amended (e : ClassEntry) :
    confidenceWeight (e.confidence.getD "medium") = amendedWeight e.confidence := by
  cases h : e.confidence with
  | none => simp [confidenceWeight, amendedWeight]
  | some s =>
      simp only [Option.getD]
      by_cases h1 : s = "high"
      · simp [confidenceWeight, amendedWeight, h1]
      · by_cases h2 : s = "medium"
        · simp [confidenceWeight, amendedWeight, h2]
        · simp [confidenceWeight, amendedWeight, h1, h2]

/-- C6 as amended: `overall_confidence` is the arithmetic mean, over the
present keys among work/topic/intent, of the weights `high→1.0`, `medium→0.5`,
missing label`→0.5`, and `0.25` for every other label — `low` and unrecognised
labels alike; `0.5` when no key is present. -/
theorem C6_amended_confidence (c : Classification) :
    calculate_overall_confidence c = amendedOverallConfidence c := by
  unfold calculate_overall_confidence amendedOverallConfidence
  have hmap : (classificationValues c).map
      (fun e => confidenceWeight (e.confidence.getD "medium")) =
      (classificationValues c).map (fun e => amendedWeight e.confidence) :=
    List.map_congr_left (fun e _ => confidenceWeight_eq_amended e)
  rw [hmap]

/-- C6 amended, instantiated at the unknown-label classification. -/
theorem C6_amended_confidence_witness :
    calculate_overall_confidence cexCls = amendedOverallConfidence cexCls :=
  C6_amended_confidence cexCls

/-- C10: the pre-digest string `content + ":" + (assistant_response or "")` is
not injective, so the cache key collapses distinct requests for every digest
function: an absent assistant response collides with an empty one, and content
"a:b" with response "" collides with content "a" with response "b:"; a cached
entry written under one request's key is served for the other request. -/
theorem C10_cache_key_not_injective (md5 : String → String) :
    (rC10a.content ≠ rC10b.content ∧
      generate_cache_key md5 rC10a = generate_cache_key md5 rC10b) ∧
    (rC10c.assistant_response = none ∧ rC10d.assistant_response = some "" ∧
      generate_cache_key md5 rC10c = generate_cache_key md5 rC10d) ∧
    (∀ v : EnrichmentResult,
      cacheGet [(generate_cache_key md5 rC10a, v, 1)] (generate_cache_key md5 rC10b) 0
        = some v) := by
  have hab : generate_cache_key md5 rC10a = generate_cache_key md5 rC10b := by
    unfold generate_cache_key
    have : cacheKeyData rC10a = cacheKeyData rC10b := by decide
    rw [this]
  refine ⟨⟨by decide, hab⟩, ⟨rfl, rfl, ?_⟩, ?_⟩
  · unfold generate_cache_key
    have : cacheKeyData rC10c = cacheKeyData rC10d := by decide
    rw [this]
  · intro v
    rw [hab]
    simp [cacheGet, List.find?]

/-- The join `runAnalyzers` succeeds exactly when no dispatched analyzer raises, and
otherwise surfaces the first raised error. -/
theorem runAnalyzers_spec (env : MessageEnv) (r : EnrichmentRequestDTO) :
    (analyzerFailures env r = [] ∧ ∃ v, runAnalyzers env r = .ok v) ∨
    (∃ e l, analyzerFailures env r = e :: l ∧ runAnalyzers env r = .error e) := by
  unfold analyzerFailures runAnalyzers
  rcases hc : env.classify r.content r.assistant_response r.conversation_history with e | cls
  · right
    exact ⟨e, _, rfl, rfl⟩
  · cases hq : r.include_quality_analysis <;> cases hp : r.include_pii_detection
    · left
      exact ⟨rfl, _, rfl⟩
    · rcases hpr : env.piiDetect r.content with ep | p
      · right
        exact ⟨ep, _, rfl, rfl⟩
      · left
        exact ⟨rfl, _, rfl⟩
    · rcases hqr : env.qualityAnalyze r.content r.assistant_response with eq | q
      · right
        exact ⟨eq, _, rfl, rfl⟩
      · left
        exact ⟨rfl, _, rfl⟩
    · rcases hqr : env.qualityAnalyze r.content r.assistant_response with eq | q
      · rcases hpr : env.piiDetect r.content with ep | p
        · right
          exact ⟨eq, _, rfl, rfl⟩
        · right
          exact ⟨eq, _, rfl, rfl⟩
      · rcases hpr : env.piiDetect r.content with ep | p
        · right
          exact ⟨ep, _, rfl, rfl⟩
        · left
          exact ⟨rfl, _, rfl⟩

/-- C2: on a cache miss, if any dispatched analyzer raises (classification is
always dispatched; quality and PII only when their request flags are set —
`analyzerCalls` below), `enrich_message` returns a `failed` outcome whose
error is the raised analyzer error, assembles no result, writes nothing to the
cache and persists nothing. -/
theorem C2_analyzer_failure_fails_message (env : MessageEnv) (cache : Cache) (now : Nat)
    (r : EnrichmentRequestDTO)
    (hmiss : cacheGet cache (generate_cache_key env.md5 r) now = none)
    (hfail : analyzerFailures env (afterWait env r) ≠ []) :
    (enrich_message env cache now r).1.status = "failed" ∧
    (∃ e ∈ analyzerFailures env (afterWait env r),
      (enrich_message env cache now r).1.error = some e) ∧
    (enrich_message env cache now r).1.result = none ∧
    (enrich_message env cache now r).2.analyzerCalls = dispatchedAnalyzers (afterWait env r) ∧
    (enrich_message env cache now r).2.cacheWrites = [] ∧
    (enrich_message env cache now r).2.persists = [] := by
  rcases runAnalyzers_spec env (afterWait env r) with ⟨hnil, -⟩ | ⟨e, l, hfl, herr⟩
  · exact absurd hnil hfail
  · have hres : enrich_message env cache now r =
        ({ job_id := env.job_id, status := "failed",
           message_id := (afterWait env r).message_id,
           result := none, processing_time_ms := none, cache_hit := false,
           error := some e },
         { analyzerCalls := dispatchedAnalyzers (afterWait env r),
           cacheWrites := [], persists := [] }) := by
      simp only [enrich_message, hmiss, herr]
    rw [hres]
    exact ⟨rfl, ⟨e, by rw [hfl]; exact List.mem_cons_self e l, rfl⟩, rfl, rfl, rfl, rfl⟩

/-- C2, applied to a concrete run in which classification and quality succeed
but the PII analyzer raises. -/
theorem C2_analyzer_failure_fails_message_witness :
    (enrich_message envC2w [] 0 reqC2w).1.status = "failed" ∧
    (∃ e ∈ analyzerFailures envC2w (afterWait envC2w reqC2w),
      (enrich_message envC2w [] 0 reqC2w).1.error = some e) ∧
    (enrich_message envC2w [] 0 reqC2w).1.result = none ∧
    (enrich_message envC2w [] 0 reqC2w).2.analyzerCalls =
      dispatchedAnalyzers (afterWait envC2w reqC2w) ∧
    (enrich_message envC2w [] 0 reqC2w).2.cacheWrites = [] ∧
    (enrich_message envC2w [] 0 reqC2w).2.persists = [] :=
  C2_analyzer_failure_fails_message envC2w [] 0 reqC2w rfl (by decide)

/-- C5: two requests with identical `(content, assistant_response)` processed
within the TTL window of the same cache.  The first call misses the cache
(`cache_hit=false`); replaying its cache writes, the second call — regardless
of its own message id, analyzers or companion environment — hits the cache,
returns exactly the previously computed result, and invokes no analyzer,
no cache write and no persistence.  The cache key itself depends only on
`(content, assistant_response)` and the digest function. -/
theorem C5_cache_idempotent (env1 env2 : MessageEnv) (cache : Cache) (now now2 : Nat)
    (r1 r2 : EnrichmentRequestDTO)
    (hmd5 : env2.md5 = env1.md5)
    (hc : r2.content = r1.content)
    (ha : r2.assistant_response = r1.assistant_response)
    (hmiss : cacheGet cache (generate_cache_key env1.md5 r1) now = none)
    (hok : (enrich_message env1 cache now r1).1.status = "completed")
    (hwin : now2 < now + 3600) :
    generate_cache_key env2.md5 r2 = generate_cache_key env1.md5 r1 ∧
    (enrich_message env1 cache now r1).1.cache_hit = false ∧
    (enrich_message env2
      (applyWrites (enrich_message env1 cache now r1).2.cacheWrites cache) now2 r2).1.cache_hit
      = true ∧
    (enrich_message env2
      (applyWrites (enrich_message env1 cache now r1).2.cacheWrites cache) now2 r2).1.status
      = "completed" ∧
    (enrich_message env2
      (applyWrites (enrich_message env1 cache now r1).2.cacheWrites cache) now2 r2).1.result
      = (enrich_message env1 cache now r1).1.result ∧
    (enrich_message env2
      (applyWrites (enrich_message env1 cache now r1).2.cacheWrites cache) now2 r2).2.analyzerCalls
      = [] ∧
    (enrich_message env2
      (applyWrites (enrich_message env1 cache now r1).2.cacheWrites cache) now2 r2).2.cacheWrites
      = [] ∧
    (enrich_message env2
      (applyWrites (enrich_message env1 cache now r1).2.cacheWrites cache) now2 r2).2.persists
      = [] := by
  have hkey : generate_cache_key env2.md5 r2 = generate_cache_key env1.md5 r1 := by
    unfold generate_cache_key cacheKeyData
    rw [hmd5, hc, ha]
  rcases runAnalyzers_spec env1 (afterWait env1 r1) with ⟨-, v, hra⟩ | ⟨e, l, -, hra⟩
  case inr =>
    have : (enrich_message env1 cache now r1).1.status = "failed" := by
      simp only [enrich_message, hmiss, hra]
    rw [this] at hok
    exact absurd hok (by decide)
  case inl =>
    obtain ⟨cls, rest⟩ := v
    have h1 : enrich_message env1 cache now r1 =
        ({ job_id := env1.job_id, status := "completed",
           message_id := (afterWait env1 r1).message_id,
           result := some (build_result env1 (afterWait env1 r1) cls rest),
           processing_time_ms := some env1.procTime, cache_hit := false, error := none },
         { analyzerCalls := dispatchedAnalyzers (afterWait env1 r1),
           cacheWrites := [(generate_cache_key env1.md5 r1,
             build_result env1 (afterWait env1 r1) cls rest, now + 3600)],
           persists := [build_result env1 (afterWait env1 r1) cls rest] }) := by
      simp only [enrich_message, hmiss, hra]
    have hcw : applyWrites (enrich_message env1 cache now r1).2.cacheWrites cache =
        (generate_cache_key env1.md5 r1,
          build_result env1 (afterWait env1 r1) cls rest, now + 3600) :: cache := by
      rw [h1]
      rfl
    have hhit : cacheGet
        ((generate_cache_key env1.md5 r1,
          build_result env1 (afterWait env1 r1) cls rest, now + 3600) :: cache)
        (generate_cache_key env2.md5 r2) now2
        = some (build_result env1 (afterWait env1 r1) cls rest) := by
      rw [hkey]
      simp [cacheGet, List.find?, hwin]
    have h2 : enrich_message env2
        (applyWrites (enrich_message env1 cache now r1).2.cacheWrites cache) now2 r2 =
        ({ job_id := env2.job_id, status := "completed", message_id := r2.message_id,
           result := some (build_result env1 (afterWait env1 r1) cls rest),
           processing_time_ms := none, cache_hit := true, error := none },
         { analyzerCalls := [], cacheWrites := [], persists := [] }) := by
      rw [hcw]
      simp only [enrich_message, hhit]
    refine ⟨hkey, ?_, ?_, ?_, ?_, ?_, ?_, ?_⟩
    · rw [h1]
    · rw [h2]
    · rw [h2]
    · rw [h2, h1]
    · rw [h2]
    · rw [h2]
    · rw [h2]

/-- C5 applied concretely: the same content twice, different message ids, a
fresh cache, times 0 and 10 within the 3600 s TTL. -/
theorem C5_cache_idempotent_witness :
    generate_cache_key envC5w.md5 rC5b = generate_cache_key envC5w.md5 rC5a ∧
    (enrich_message envC5w [] 0 rC5a).1.cache_hit = false ∧
    (enrich_message envC5w
      (applyWrites (enrich_message envC5w [] 0 rC5a).2.cacheWrites []) 10 rC5b).1.cache_hit
      = true ∧
    (enrich_message envC5w
      (applyWrites (enrich_message envC5w [] 0 rC5a).2.cacheWrites []) 10 rC5b).1.status
      = "completed" ∧
    (enrich_message envC5w
      (applyWrites (enrich_message envC5w [] 0 rC5a).2.cacheWrites []) 10 rC5b).1.result
      = (enrich_message envC5w [] 0 rC5a).1.result ∧
    (enrich_message envC5w
      (applyWrites (enrich_message envC5w [] 0 rC5a).2.cacheWrites []) 10 rC5b).2.analyzerCalls
      = [] ∧
    (enrich_message envC5w
      (applyWrites (enrich_message envC5w [] 0 rC5a).2.cacheWrites []) 10 rC5b).2.cacheWrites
      = [] ∧
    (enrich_message envC5w
      (applyWrites (enrich_message envC5w [] 0 rC5a).2.cacheWrites []) 10 rC5b).2.persists
      = [] :=
  C5_cache_idempotent envC5w envC5w [] 0 10 rC5a rC5b rfl rfl rfl rfl (by decide) (by decide)

/-- Recursion agreement: `_deduplicate_messages`'s seen-set recursion agrees with the prefix-based
first-occurrence filter, whenever `seen` holds exactly the digests of the
already-traversed `pre`. -/
theorem dedupGo_eq_aux (md5 : String → String) (msgs : List EnrichmentRequestDTO) :
    ∀ (seen : List String) (pre : List EnrichmentRequestDTO),
      (∀ h, h ∈ seen ↔ h ∈ pre.map (fun p => md5 p.content)) →
      dedupGo md5 seen msgs = firstOccurrenceAux md5 pre msgs := by
  induction msgs with
  | nil =>
      intro seen pre _
      rfl
  | cons m rest ih =>
      intro seen pre hiff
      unfold dedupGo firstOccurrenceAux
      by_cases hmem : md5 m.content ∈ seen
      · rw [if_pos hmem, if_pos ((hiff _).mp hmem)]
        refine ih seen (pre ++ [m]) (fun h => ?_)
        rw [List.map_append, List.mem_append]
        constructor
        · intro hs
          exact Or.inl ((hiff h).mp hs)
        · rintro (hp | hm)
          · exact (hiff h).mpr hp
          · simp only [List.map_cons, List.map_nil, List.mem_singleton] at hm
            rw [hm]
            exact hmem
      · rw [if_neg hmem, if_neg (fun hcon => hmem ((hiff _).mpr hcon))]
        congr 1
        refine ih (md5 m.content :: seen) (pre ++ [m]) (fun h => ?_)
        rw [List.map_append, List.mem_append]
        constructor
        · intro hs
          rcases List.mem_cons.mp hs with rfl | hs2
          · right
            simp
          · exact Or.inl ((hiff h).mp hs2)
        · rintro (hp | hm)
          · exact List.mem_cons_of_mem _ ((hiff h).mpr hp)
          · simp only [List.map_cons, List.map_nil, List.mem_singleton] at hm
            rw [hm]
            exact List.mem_cons_self _ _

/-- C9: with `deduplicate` enabled, the processed list is exactly the first
occurrence of each distinct content digest, in original submission order
(later duplicates silently dropped); consequently a two-message batch whose
requests share identical content — whatever their message ids and the other
batch flags — dispatches exactly one pipeline invocation. -/
theorem C9_dedup_first_occurrence :
    (∀ (md5 : String → String) (msgs : List EnrichmentRequestDTO),
      deduplicate_messages md5 msgs = firstOccurrenceFilter md5 msgs) ∧
    (∀ (env : BatchEnv) (req : BatchEnrichmentRequestDTO) (m1 m2 : EnrichmentRequestDTO),
      req.messages = [m1, m2] → m1.content = m2.content → req.deduplicate = true →
      ((enrich_batch env req).2.dispatched).length = 1) := by
  constructor
  · intro md5 msgs
    exact dedupGo_eq_aux md5 msgs [] [] (by simp)
  · intro env req m1 m2 hm hceq hd
    have hmtp : messagesToProcess env req = [m1] := by
      unfold messagesToProcess
      rw [hd, if_pos rfl, hm]
      simp [deduplicate_messages, dedupGo, ← hceq]
    have hlen : (processingOrder (conversationGroups env req)).length = 1 := by
      cases hsc : req.share_context <;>
        simp [conversationGroups, hsc, hmtp, group_by_conversation, singletonGroups,
          processingOrder, injectContext, build_shared_context, sortStable, insertLt,
          addToGroup]
    obtain ⟨x, hx⟩ := List.length_eq_one.mp hlen
    have hdisp : (enrich_batch env req).2.dispatched =
        (batchProcess env req (messagesToProcess env req)
          (processingOrder (conversationGroups env req))).2.2 := by
      unfold enrich_batch
      rcases hp : batchProcess env req (messagesToProcess env req)
        (processingOrder (conversationGroups env req)) with ⟨agg, abort, dis⟩
      cases abort <;> rfl
    rw [hdisp]
    unfold batchProcess
    cases hpar : req.parallel_processing
    · rw [if_neg (by simp)]
      rw [hx]
      unfold sequentialLoop
      rcases hrx : env.run x with e | v
      · cases hff : req.fail_fast <;> simp [sequentialLoop]
      · simp [sequentialLoop]
    · rw [if_pos rfl]
      rw [hx]
      simp

/-- C9 applied to the concrete identical-content pair. -/
theorem C9_dedup_first_occurrence_witness :
    (enrich_batch envC9w reqC9w).2.dispatched.length = 1 :=
  C9_dedup_first_occurrence.2 envC9w reqC9w mC9a mC9b rfl rfl rfl

end MessageEnrichment
